import Mathlib

/-!
# Verification of the iris-traffic-system streaming pipeline

Shallow embedding of the core streaming/dispatch logic of the repository:

* `irisv3/backend/video_processing.py` — `stream_video_analysis`: the
  sampled-file frame loop, field-name normalization, websocket push and
  durable-store append;
* `irisv3/backend/gemini_service.py` — `analyze_frames`: the remote analyzer
  call with its failure stubs;
* `magicbox-node/workers/base/worker.py` — `BaseWorker.send_event`: wire
  shape selection and success accounting for the remote ingestion sink;
* `magicbox-node/workers/yolo_detector/main.py` —
  `YOLODetectorWorker.process_frame`: the per-camera alert cooldown gate.

Python dicts are modelled as association lists of `PyVal`s (first-match
lookup, in-place replace / append-at-end insert, mirroring insertion-ordered
Python dicts); machine floats for timestamps/fps are modelled as rationals;
fallible calls are passed in as `Except` oracles.
-/

namespace Iris

/-- A Python value as it appears in the insight dictionaries of the
pipeline: `None`, an int, a string, or a list of strings (the shape of
every `alerts` value the code produces). -/
inductive PyVal where
  | vNone : PyVal
  | vInt (n : Int) : PyVal
  | vStr (s : String) : PyVal
  | vStrList (xs : List String) : PyVal
deriving DecidableEq, Repr

/-- A Python dict with string keys, as an insertion-ordered association
list; keys are unique in every dict actually built by the code. -/
abbrev Dict := List (String × PyVal)

/-- First-match lookup, `d.get(k)`-style (`none` when the key is absent). -/
def dictLookup : Dict → String → Option PyVal
  | [], _ => none
  | (k', v) :: t, k => if k' = k then some v else dictLookup t k

/-- `k in d` for a Python dict. -/
def hasKey (d : Dict) (k : String) : Bool :=
  (dictLookup d k).isSome

/-- `d.get(k, default)`. -/
def getD (d : Dict) (k : String) (v₀ : PyVal) : PyVal :=
  (dictLookup d k).getD v₀

/-- `d[k] = v`: replace the first binding of `k` in place, else append
(Python dicts keep insertion order and append new keys at the end). -/
def setKey : Dict → String → PyVal → Dict
  | [], k, v => [(k, v)]
  | (k', v') :: t, k, v =>
      if k' = k then (k, v) :: t else (k', v') :: setKey t k v

/-- Value of a list of decimal digit characters. -/
def digitsVal (cs : List Char) : Nat :=
  cs.foldl (fun a c => 10 * a + (c.toNat - ('0').toNat)) 0

/-- `s.strip()` on the character list of a Python string: drop leading and
trailing whitespace. -/
def pyStrip (cs : List Char) : List Char :=
  ((cs.dropWhile Char.isWhitespace).reverse.dropWhile Char.isWhitespace).reverse

/-- `s.replace("%", "")`: remove every occurrence of the one-character
pattern `%`. -/
def removePercent (cs : List Char) : List Char :=
  cs.filter (fun c => c ≠ '%')

/-- Python `int(s)` on a string: strip surrounding whitespace, optional
sign, then a non-empty run of decimal digits; `none` models the
`ValueError` raised on anything else.  (Digit-grouping underscores,
which never occur in this pipeline's data, are not modelled.) -/
def pyInt (s : List Char) : Option Int :=
  let core : Int × List Char :=
    match pyStrip s with
    | '-' :: rest => (-1, rest)
    | '+' :: rest => (1, rest)
    | cs => (1, cs)
  if core.2 ≠ [] ∧ core.2.all Char.isDigit then
    some (core.1 * (digitsVal core.2 : Int))
  else none

/-- Lines 94–95 of `video_processing.py`: when the insight has a
`congestion_level` key but no `congestion` key, mirror the value under
`congestion` (so the frontend sees a consistent key). -/
def congestionAlias (d : Dict) : Dict :=
  if hasKey d "congestion_level" ∧ ¬ hasKey d "congestion" then
    setKey d "congestion" ((dictLookup d "congestion_level").getD .vNone)
  else d

/-- Lines 96–102 of `video_processing.py`: if `free_space` holds a string,
drop every `%`, strip whitespace, and try Python `int` on the result;
on success store the int, on failure (`except: pass`) leave the dict
untouched. -/
def coerceFreeSpace (d : Dict) : Dict :=
  match dictLookup d "free_space" with
  | some (.vStr s) =>
      match pyInt (pyStrip (removePercent s.data)) with
      | some n => setKey d "free_space" (.vInt n)
      | none => d
  | _ => d

/-- The normalization block of `stream_video_analysis`
(`video_processing.py` lines 93–102): congestion aliasing followed by
free-space coercion. -/
def normalizeInsight (d : Dict) : Dict :=
  coerceFreeSpace (congestionAlias d)

/-! ## The sampled-file frame loop (`video_processing.py` lines 35–160)

The loop reads one native frame per iteration (`cap.read()`), breaking at
end of medium.  On iterations whose loop counter `frame_count` is a
multiple of `frame_interval` it processes a tick: the frame just read is
the anchor, and up to two further native frames are read immediately
(advancing the capture) to form the analysis window.  `frame_count`
advances by one per loop iteration, so it does *not* count the extra
window reads.

A tick is recorded as `(frame_count, anchor, window)` where `anchor` is
the native-frame index of the anchor read and `window` the number of
frames in the analysis window (1 + extra frames actually read). -/

/-- One processed tick: the loop-counter id stamped on the tick
(`frame_id`), the native index of its anchor frame, and its window size. -/
abbrev Tick := Nat × Nat × Nat

/-- The frame loop of `stream_video_analysis`, fuel-indexed: `n` is the
native frame count of the medium, `cadence` the `frame_interval`, `pos`
the index of the next native frame `cap.read()` would return, `fc` the
`frame_count` loop counter.  One fuel unit is spent per loop iteration;
`fuel ≥ n - pos` suffices since every iteration consumes at least one
native frame. -/
def streamTicksAux (n cadence : Nat) : Nat → Nat → Nat → List Tick
  | 0, _, _ => []
  | fuel + 1, pos, fc =>
      if pos < n then
        if fc % cadence = 0 then
          let extras := min 2 (n - (pos + 1))
          (fc, pos, 1 + extras) ::
            streamTicksAux n cadence fuel (pos + 1 + extras) (fc + 1)
        else
          streamTicksAux n cadence fuel (pos + 1) (fc + 1)
      else []

/-- All ticks emitted by `stream_video_analysis` over a medium of `n`
native frames at cadence `cadence`. -/
def streamTicks (n cadence : Nat) : List Tick :=
  streamTicksAux n cadence n 0 0

/-- The number of ticks the loop actually emits:
`⌈n / (cadence + 2)⌉`, here in the `Nat`-division form
`(n + cadence + 1) / (cadence + 2)`. -/
def numTicks (n cadence : Nat) : Nat :=
  (n + cadence + 1) / (cadence + 2)

/-- `streamTicksAux` at its canonical sufficient fuel `n - pos`: the rest
of the loop starting with the read of native frame `pos` at loop counter
`fc`. -/
def streamFrom (n cadence pos fc : Nat) : List Tick :=
  streamTicksAux n cadence (n - pos) pos fc

/-! ## Cadence selection (`video_processing.py` lines 17–23)

`fps = cap.get(cv2.CAP_PROP_FPS); if fps == 0: fps = 30;
frame_interval = int(fps)`.  The float fps is modelled as a rational;
Python `int()` on a float truncates toward zero. -/

/-- Python `int(q)` on a rational standing for a float: truncation toward
zero (`num.tdiv den` on the reduced fraction). -/
def pyIntOfRat (q : ℚ) : ℤ :=
  q.num.tdiv q.den

/-- Python `round(q)` (banker's rounding: nearest, ties to even), via the
floor `f = num.fdiv den` and twice the fractional numerator. -/
def pyRound (q : ℚ) : ℤ :=
  let f := q.num.fdiv q.den
  let r2 := 2 * (q.num - f * q.den)
  if r2 < (q.den : ℤ) then f
  else if (q.den : ℤ) < r2 then f + 1
  else if f % 2 = 0 then f else f + 1

/-- `frame_interval` as computed by `stream_video_analysis`: the reported
fps with an exact-zero reading remapped to 30, truncated to an int. -/
def frameCadence (fps : ℚ) : ℤ :=
  pyIntOfRat (if fps = 0 then 30 else fps)

/-! ## The remote analyzer call (`gemini_service.py` lines 15–86)

`analyze_frames` first checks the module-level `GENAI_API_KEY` (Python
truthiness: unset or empty is falsy) and returns a simulated stub when it
is missing.  Otherwise it opens the image paths that exist, returns a
`No images` stub when none do, and calls the remote model inside a
`try/except`: the happy path returns the parsed JSON dict, and any
exception (network fault, timeout, `json.loads` failure, …) is caught and
turned into the API-error stub.  The remote call plus JSON parse is
passed in as an `Except` oracle. -/

/-- Python truthiness of an optional string (`None` and `""` are falsy). -/
def truthyStr : Option String → Bool
  | none => false
  | some s => s ≠ ""

/-- The stub returned when `GENAI_API_KEY` is not set
(`gemini_service.py` lines 19–27). -/
def keyMissingStub : Dict :=
  [("count", .vInt 0), ("density", .vStr "unknown"), ("movement", .vStr "unknown"),
   ("behavior", .vStr "Simulated: API Key missing"), ("alerts", .vStrList [])]

/-- The stub returned when none of the image paths exist
(`gemini_service.py` lines 40–47). -/
def noImagesStub : Dict :=
  [("count", .vInt 0), ("density", .vStr "error"), ("movement", .vStr "error"),
   ("behavior", .vStr "No images"), ("alerts", .vStrList ["Image Error"])]

/-- The stub returned by the `except` handler when the remote call (or
parsing its response) raises (`gemini_service.py` lines 78–86). -/
def apiErrorStub : Dict :=
  [("count", .vInt 0), ("density", .vStr "error"), ("movement", .vStr "error"),
   ("behavior", .vStr "Error processing frame"), ("alerts", .vStrList ["API Error"])]

/-- `analyze_frames`: `apiKey` is the module's `GENAI_API_KEY`,
`imagesExist` records, per supplied path, whether `os.path.exists` holds,
and `remote` is the outcome of `model.generate_content` +
`json.loads` (`.error` models a raised exception). -/
def analyze_frames (apiKey : Option String) (imagesExist : List Bool)
    (remote : Except String Dict) : Dict :=
  if ¬ truthyStr apiKey then keyMissingStub
  else if (imagesExist.filter id).isEmpty then noImagesStub
  else
    match remote with
    | .ok d => d
    | .error _ => apiErrorStub

/-! ## One tick's dispatch (`video_processing.py` lines 85–148)

For each processed tick the loop: calls the analyzer inside `try/except`
(an exception is replaced by `{"error": str(e)}`), normalizes the field
names, stamps `timestamp` and `frame_id`, always sends the
`{"type": "frame", ...}` payload over the websocket, and appends a
`CrowdInsight` row to the database only when the insight has no
`"error"` key. -/

/-- One row of the `crowd_insights` table as built at
`video_processing.py` lines 134–146 (the `json.dumps` serialisation of
`alerts` is kept as the looked-up value). -/
structure CrowdRow where
  video_filename : String
  frame_id : Int
  people_count : PyVal
  density_label : PyVal
  movement : PyVal
  flow_rate : PyVal
  congestion_level : PyVal
  free_space : PyVal
  demographics : PyVal
  behavior : PyVal
  alerts : PyVal
deriving DecidableEq, Repr

/-- The `CrowdInsight(...)` constructor call of lines 134–146, with its
per-field `insight.get(..., default)` reads. -/
def mkRow (filename : String) (fc : Nat) (d : Dict) : CrowdRow where
  video_filename := filename
  frame_id := (fc : Int)
  people_count := getD d "count" (.vInt 0)
  density_label := getD d "density" (.vStr "unknown")
  movement := getD d "movement" (.vStr "unknown")
  flow_rate := getD d "flow_rate" (.vInt 0)
  congestion_level := getD d "congestion_level" (.vInt 0)
  free_space := getD d "free_space" (.vInt 0)
  demographics := getD d "demographics" (.vStr "")
  behavior := getD d "behavior" (.vStr "")
  alerts := getD d "alerts" (.vStrList [])

/-- What one tick of the loop emits to its sinks. -/
structure TickOutput where
  /-- The insight carried by the websocket `{"type": "frame"}` payload,
  which is sent unconditionally. -/
  wsInsight : Dict
  /-- Rows appended to the durable store by this tick. -/
  dbRows : List CrowdRow
deriving DecidableEq, Repr

/-- Lines 85–148 of `stream_video_analysis` for one tick:
`analyzerResult` is the outcome of `gemini_service.analyze_frames`
(`.error` models a raised exception, replaced by `{"error": str(e)}` at
lines 89–91), `ts` the wall-clock timestamp and `fc` the tick's
`frame_count`. -/
def tickDispatch (filename : String) (analyzerResult : Except String Dict)
    (ts : String) (fc : Nat) : TickOutput :=
  let insight₀ : Dict :=
    match analyzerResult with
    | .ok d => d
    | .error e => [("error", .vStr e)]
  let insight₁ := normalizeInsight insight₀
  let insight₂ := setKey (setKey insight₁ "timestamp" (.vStr ts)) "frame_id" (.vInt fc)
  { wsInsight := insight₂
    dbRows := if hasKey insight₂ "error" then [] else [mkRow filename fc insight₂] }

/-! ## Remote ingestion (`workers/base/worker.py` lines 133–191)

`BaseWorker.send_event` builds the event payload, then posts it to
`{platform_url}/api/events/ingest` as multipart form data (payload JSON
plus the binary JPEG under `frame`) when `event.frame` is truthy, else as
the JSON batch envelope `{"events": [payload]}`.  Success is
`resp.status == 200`; only then is `events_sent` incremented.  A raised
exception is caught and reported as failure. -/

/-- An `Event` dataclass instance (`worker.py` lines 48–59); `frame` is
the optional JPEG byte string, timestamps are rationals standing for the
float seconds of `time.time()`. -/
structure Event where
  event_type : String
  camera_id : String
  data : Dict
  frame : Option (List Nat) := none
  timestamp : ℚ
deriving DecidableEq, Repr

/-- Python truthiness of `event.frame` (`None` and `b""` are falsy). -/
def truthyBytes : Option (List Nat) → Bool
  | none => false
  | some bs => ¬ bs.isEmpty

/-- The `event_payload` dict of `worker.py` lines 137–144.  The
`strftime`-rendered timestamp string is abstracted to the truncated
epoch seconds it renders. -/
structure EventPayload where
  id : String
  timestamp_sec : ℤ
  worker_id : String
  device_id : String
  event_type : String
  data : Dict
deriving DecidableEq, Repr

/-- Build the payload for an event: `id` is
`f"{worker_id}_{int(event.timestamp * 1000)}"`. -/
def eventPayload (workerId : String) (e : Event) : EventPayload where
  id := workerId ++ "_" ++ toString (pyIntOfRat (e.timestamp * 1000))
  timestamp_sec := pyIntOfRat e.timestamp
  worker_id := workerId
  device_id := e.camera_id
  event_type := e.event_type
  data := e.data

/-- The two wire shapes of the ingestion POST. -/
inductive WireRequest where
  | multipart (event : EventPayload) (frameBytes : List Nat) : WireRequest
  | jsonBatch (events : List EventPayload) : WireRequest
deriving DecidableEq, Repr

/-- The request body `send_event` posts for an event. -/
def sendEventRequest (workerId : String) (e : Event) : WireRequest :=
  if truthyBytes e.frame then
    .multipart (eventPayload workerId e) (e.frame.getD [])
  else
    .jsonBatch [eventPayload workerId e]

/-- `true` exactly on the multipart shape. -/
def WireRequest.isMultipart : WireRequest → Bool
  | .multipart _ _ => true
  | .jsonBatch _ => false

/-- Outcome of one `send_event` call: from the HTTP outcome (`.error`
models an exception raised anywhere in the `try`, `.ok status` a
response), the reported success and the increment applied to the
`events_sent` counter. -/
def sendEventResult (outcome : Except String Nat) : Bool × Nat :=
  match outcome with
  | .error _ => (false, 0)
  | .ok status =>
      let success := status = 200
      (success, if success then 1 else 0)

/-! ## The alert cooldown gate (`workers/yolo_detector/main.py` lines 128–216)

`process_frame` publishes all detections to NATS whenever the detection
list is non-empty, and then, when at least one `person` was detected and
`now - last_alert_time.get(camera_id, 0) >= alert_cooldown` holds, stamps
`last_alert_time[camera_id] = now` and emits a `person_detected` alert
event.  Frames are abstracted to the list of detected class names; times
are rationals standing for `time.time()` floats. -/

/-- The worker's `last_alert_time` dict. -/
abbrev AlertState := List (String × ℚ)

/-- `last_alert_time.get(camera_id, 0)`. -/
def lookupTime : AlertState → String → ℚ
  | [], _ => 0
  | (c, t) :: rest, cam => if c = cam then t else lookupTime rest cam

/-- `last_alert_time[camera_id] = now`. -/
def setTime : AlertState → String → ℚ → AlertState
  | [], cam, t => [(cam, t)]
  | (c, t') :: rest, cam, t =>
      if c = cam then (cam, t) :: rest else (c, t') :: setTime rest cam t

/-- Everything one `process_frame` call does that the gate claims talk
about. -/
structure YoloTickResult where
  /-- Updated `last_alert_time`. -/
  state : AlertState
  /-- The detection list published to NATS for the UI overlay, when the
  frame had any detections (`main.py` lines 182–183). -/
  published : Option (List String)
  /-- Whether a `person_detected` alert event was emitted
  (`main.py` lines 186–205). -/
  alerted : Bool
deriving DecidableEq, Repr

/-- One `process_frame` call on a frame of `cam` whose parsed detections
have class names `classes`, at wall-clock `now`. -/
def yoloTick (cooldown : ℚ) (st : AlertState) (cam : String)
    (classes : List String) (now : ℚ) : YoloTickResult :=
  let personCount := (classes.filter (fun c => c = "person")).length
  let published := if classes.isEmpty then none else some classes
  if 0 < personCount ∧ cooldown ≤ now - lookupTime st cam then
    { state := setTime st cam now, published := published, alerted := true }
  else
    { state := st, published := published, alerted := false }

/-- The times at which alerts are actually emitted over a run of frames
`(classes, now)` for one camera. -/
def runAlerts (cooldown : ℚ) (cam : String) :
    AlertState → List (List String × ℚ) → List ℚ
  | _, [] => []
  | st, (cls, t) :: rest =>
      let r := yoloTick cooldown st cam cls t
      if r.alerted then t :: runAlerts cooldown cam r.state rest
      else runAlerts cooldown cam r.state rest


/-- A concrete Insight in the spec's canonical shape: every canonical
field name present with its canonical type (and no `congestion` alias,
which is not among the canonical field names). -/
def canonicalInsight : Dict :=
  [("count", .vInt 12), ("density", .vStr "low"), ("movement", .vStr "static"),
   ("flow_rate", .vInt 3), ("congestion_level", .vInt 5), ("free_space", .vInt 50),
   ("behavior", .vStr "calm"), ("demographics", .vStr "mixed ages"),
   ("alerts", .vStrList []), ("source_id", .vStr "cam_001"),
   ("produced_at", .vStr "2024-01-01T00:00:00"), ("sequence_id", .vInt 0)]

/-! ## Association-list lemmas -/

theorem dictLookup_setKey_self (d : Dict) (k : String) (v : PyVal) :
    dictLookup (setKey d k v) k = some v := by
  induction d with
  | nil => simp [setKey, dictLookup]
  | cons hd t ih =>
      obtain ⟨k', v'⟩ := hd
      by_cases h : k' = k
      · simp [setKey, h, dictLookup]
      · simp [setKey, h, dictLookup, ih]

theorem dictLookup_setKey_of_ne (d : Dict) {k k' : String} (v : PyVal)
    (h : k' ≠ k) : dictLookup (setKey d k v) k' = dictLookup d k' := by
  induction d with
  | nil => simp [setKey, dictLookup, Ne.symm h]
  | cons hd t ih =>
      obtain ⟨k₀, v₀⟩ := hd
      by_cases h₀ : k₀ = k
      · subst h₀
        simp [setKey, dictLookup, Ne.symm h]
      · simp [setKey, h₀, dictLookup, ih]

theorem hasKey_setKey_of_hasKey {d : Dict} {k : String} (v : PyVal)
    (h : hasKey d k = true) (k' : String) :
    hasKey (setKey d k v) k' = hasKey d k' := by
  by_cases hk : k' = k
  · subst hk
    simp [hasKey, dictLookup_setKey_self]
    simpa [hasKey] using h
  · simp [hasKey, dictLookup_setKey_of_ne d v hk]

theorem lookup_congestionAlias_of_ne (d : Dict) {k : String}
    (h : k ≠ "congestion") :
    dictLookup (congestionAlias d) k = dictLookup d k := by
  unfold congestionAlias
  split
  · exact dictLookup_setKey_of_ne d _ h
  · rfl

theorem lookup_coerceFreeSpace_of_ne (d : Dict) {k : String}
    (h : k ≠ "free_space") :
    dictLookup (coerceFreeSpace d) k = dictLookup d k := by
  unfold coerceFreeSpace
  split
  · split
    · exact dictLookup_setKey_of_ne d _ h
    · rfl
  · rfl

theorem hasKey_coerceFreeSpace (d : Dict) (k : String) :
    hasKey (coerceFreeSpace d) k = hasKey d k := by
  cases hfs : dictLookup d "free_space" with
  | none => simp [coerceFreeSpace, hfs]
  | some v =>
      cases v with
      | vNone => simp [coerceFreeSpace, hfs]
      | vInt n => simp [coerceFreeSpace, hfs]
      | vStrList xs => simp [coerceFreeSpace, hfs]
      | vStr s =>
          cases hp : pyInt (pyStrip (removePercent s.data)) with
          | none => simp [coerceFreeSpace, hfs, hp]
          | some n =>
              simp only [coerceFreeSpace, hfs, hp]
              exact hasKey_setKey_of_hasKey (.vInt n) (by simp [hasKey, hfs]) k

theorem hasKey_congestionAlias_of_ne (d : Dict) {k : String}
    (h : k ≠ "congestion") :
    hasKey (congestionAlias d) k = hasKey d k := by
  simp [hasKey, lookup_congestionAlias_of_ne d h]

theorem lookup_normalizeInsight_of_ne (d : Dict) {k : String}
    (h₁ : k ≠ "congestion") (h₂ : k ≠ "free_space") :
    dictLookup (normalizeInsight d) k = dictLookup d k := by
  unfold normalizeInsight
  rw [lookup_coerceFreeSpace_of_ne _ h₂, lookup_congestionAlias_of_ne _ h₁]

theorem congestionAlias_noop {d : Dict}
    (h : hasKey d "congestion" = true ∨ hasKey d "congestion_level" = false) :
    congestionAlias d = d := by
  unfold congestionAlias
  rcases h with h | h <;> rw [if_neg] <;> simp [h]

theorem hasKey_congestion_congestionAlias (d : Dict) :
    hasKey (congestionAlias d) "congestion" = true
      ∨ hasKey (congestionAlias d) "congestion_level" = false := by
  unfold congestionAlias
  split
  · left
    simp [hasKey, dictLookup_setKey_self]
  · next h =>
      rcases Decidable.not_and_iff_or_not.mp h with h' | h'
      · right
        simpa using h'
      · left
        simpa using h'

theorem congestionAlias_after_normalize (d : Dict) :
    congestionAlias (normalizeInsight d) = normalizeInsight d := by
  apply congestionAlias_noop
  have h := hasKey_congestion_congestionAlias d
  unfold normalizeInsight
  rcases h with h | h
  · left
    rw [hasKey_coerceFreeSpace]
    exact h
  · right
    rw [hasKey_coerceFreeSpace]
    exact h

theorem coerceFreeSpace_idem (d : Dict) :
    coerceFreeSpace (coerceFreeSpace d) = coerceFreeSpace d := by
  cases hfs : dictLookup d "free_space" with
  | none =>
      have hd : coerceFreeSpace d = d := by simp [coerceFreeSpace, hfs]
      rw [hd, hd]
  | some v =>
      cases v with
      | vNone =>
          have hd : coerceFreeSpace d = d := by simp [coerceFreeSpace, hfs]
          rw [hd, hd]
      | vInt n =>
          have hd : coerceFreeSpace d = d := by simp [coerceFreeSpace, hfs]
          rw [hd, hd]
      | vStrList xs =>
          have hd : coerceFreeSpace d = d := by simp [coerceFreeSpace, hfs]
          rw [hd, hd]
      | vStr s =>
          cases hp : pyInt (pyStrip (removePercent s.data)) with
          | none =>
              have hd : coerceFreeSpace d = d := by simp [coerceFreeSpace, hfs, hp]
              rw [hd, hd]
          | some n =>
              have hd : coerceFreeSpace d = setKey d "free_space" (.vInt n) := by
                simp [coerceFreeSpace, hfs, hp]
              rw [hd]
              simp [coerceFreeSpace, dictLookup_setKey_self]

theorem normalizeInsight_idem (d : Dict) :
    normalizeInsight (normalizeInsight d) = normalizeInsight d := by
  conv_lhs => rw [normalizeInsight, congestionAlias_after_normalize]
  rw [normalizeInsight, coerceFreeSpace_idem]

theorem hasKey_error_normalizeInsight (d : Dict) :
    hasKey (normalizeInsight d) "error" = hasKey d "error" := by
  unfold normalizeInsight
  rw [hasKey_coerceFreeSpace, hasKey_congestionAlias_of_ne]
  decide

theorem hasKey_setKey_of_ne (d : Dict) {k k' : String} (v : PyVal)
    (h : k' ≠ k) : hasKey (setKey d k v) k' = hasKey d k' := by
  simp [hasKey, dictLookup_setKey_of_ne d v h]

theorem coerceFreeSpace_parse {d : Dict} {s : String} {n : ℤ}
    (hfs : dictLookup d "free_space" = some (.vStr s))
    (hp : pyInt (pyStrip (removePercent s.data)) = some n) :
    coerceFreeSpace d = setKey d "free_space" (.vInt n) := by
  simp [coerceFreeSpace, hfs, hp]

theorem coerceFreeSpace_noparse {d : Dict} {s : String}
    (hfs : dictLookup d "free_space" = some (.vStr s))
    (hp : pyInt (pyStrip (removePercent s.data)) = none) :
    coerceFreeSpace d = d := by
  simp [coerceFreeSpace, hfs, hp]

theorem coerceFreeSpace_notStr {d : Dict}
    (h : ∀ s : String, dictLookup d "free_space" ≠ some (.vStr s)) :
    coerceFreeSpace d = d := by
  cases hfs : dictLookup d "free_space" with
  | none => simp [coerceFreeSpace, hfs]
  | some v =>
      cases v with
      | vNone => simp [coerceFreeSpace, hfs]
      | vInt n => simp [coerceFreeSpace, hfs]
      | vStrList xs => simp [coerceFreeSpace, hfs]
      | vStr s => exact absurd hfs (h s)

theorem lookup_stamp_of_ne (x : Dict) {k : String} (ts : String) (fc : Nat)
    (h1 : k ≠ "timestamp") (h2 : k ≠ "frame_id") :
    dictLookup (setKey (setKey x "timestamp" (.vStr ts)) "frame_id" (.vInt fc)) k
      = dictLookup x k := by
  rw [dictLookup_setKey_of_ne _ _ h2, dictLookup_setKey_of_ne _ _ h1]

theorem hasKey_error_stamp (x : Dict) (ts : String) (fc : Nat) :
    hasKey (setKey (setKey x "timestamp" (.vStr ts)) "frame_id" (.vInt fc)) "error"
      = hasKey x "error" := by
  rw [hasKey_setKey_of_ne _ _ (by decide), hasKey_setKey_of_ne _ _ (by decide)]

theorem tickDispatch_ok_dbRows {f ts : String} {fc : Nat} {d : Dict}
    (he : hasKey d "error" = false) :
    (tickDispatch f (.ok d) ts fc).dbRows
      = [mkRow f fc
          (setKey (setKey (normalizeInsight d) "timestamp" (.vStr ts))
            "frame_id" (.vInt fc))] := by
  have h : hasKey
      (setKey (setKey (normalizeInsight d) "timestamp" (.vStr ts))
        "frame_id" (.vInt fc)) "error" = false := by
    rw [hasKey_error_stamp, hasKey_error_normalizeInsight]
    exact he
  simp [tickDispatch, h]

theorem congestionAlias_of_condition {d : Dict}
    (h1 : hasKey d "congestion_level" = true) (h2 : hasKey d "congestion" = false) :
    congestionAlias d
      = setKey d "congestion" ((dictLookup d "congestion_level").getD .vNone) := by
  simp [congestionAlias, h1, h2]

/-! ## Claims -/

/-- C3 (counterexample): normalizing `{"free_space": "n/a"}` leaves the
field holding the string `"n/a"`, not the claimed default integer 0. -/
theorem C3_counterexample :
    dictLookup (normalizeInsight [("free_space", .vStr "n/a")]) "free_space"
      = some (.vStr "n/a")
    ∧ (some (PyVal.vStr "n/a") ≠ some (PyVal.vInt 0)) := by
  decide

/-- C3 (amended): a raw result whose `free_space` is the string `"42%"`
normalizes to the integer 42; one whose `free_space` is `"n/a"` is
normalized without raising, the field retaining the original string (the
default 0 applies only where the field is read with a fallback while
absent). -/
theorem C3_free_space_coercion :
    (∀ d : Dict, dictLookup d "free_space" = some (.vStr "42%") →
      dictLookup (normalizeInsight d) "free_space" = some (.vInt 42))
    ∧ (∀ d : Dict, dictLookup d "free_space" = some (.vStr "n/a") →
      dictLookup (normalizeInsight d) "free_space" = some (.vStr "n/a")) := by
  constructor
  · intro d hd
    have h1 : dictLookup (congestionAlias d) "free_space" = some (.vStr "42%") := by
      rw [lookup_congestionAlias_of_ne d (by decide)]
      exact hd
    unfold normalizeInsight
    rw [coerceFreeSpace_parse h1
        (show pyInt (pyStrip (removePercent ("42%").data)) = some 42 by decide),
      dictLookup_setKey_self]
  · intro d hd
    have h1 : dictLookup (congestionAlias d) "free_space" = some (.vStr "n/a") := by
      rw [lookup_congestionAlias_of_ne d (by decide)]
      exact hd
    unfold normalizeInsight
    rw [coerceFreeSpace_noparse h1 (by decide)]
    exact h1

/-- C3 witness: the amended coercion at the two concrete inputs. -/
theorem C3_free_space_coercion_witness :
    dictLookup (normalizeInsight [("free_space", .vStr "42%")]) "free_space"
      = some (.vInt 42)
    ∧ dictLookup (normalizeInsight [("free_space", .vStr "n/a")]) "free_space"
      = some (.vStr "n/a") :=
  ⟨C3_free_space_coercion.1 [("free_space", .vStr "42%")] (by decide),
   C3_free_space_coercion.2 [("free_space", .vStr "n/a")] (by decide)⟩

/-- C4 (counterexample): the failure stub returned when the remote
analyzer raises carries the one-element alert list `["API Error"]`, not
the empty alerts set the claim states. -/
theorem C4_counterexample :
    dictLookup (analyze_frames (some "key") [true] (.error "timeout")) "alerts"
      = some (.vStrList ["API Error"])
    ∧ (some (PyVal.vStrList ["API Error"]) ≠ some (PyVal.vStrList [])) := by
  decide

/-- C4 (amended): whenever the bound strategy fails at call time, the
call returns the Failure Insight stub — `density = "error"`,
`movement = "error"`, alerts `["API Error"]` (one element, not empty) and
explanatory behavior text — instead of propagating the exception. -/
theorem C4_analyzer_failure_stub :
    ∀ (apiKey : Option String) (imagesExist : List Bool) (err : String),
      truthyStr apiKey = true →
      (imagesExist.filter id).isEmpty = false →
      analyze_frames apiKey imagesExist (.error err) = apiErrorStub
      ∧ dictLookup (analyze_frames apiKey imagesExist (.error err)) "density"
          = some (.vStr "error")
      ∧ dictLookup (analyze_frames apiKey imagesExist (.error err)) "movement"
          = some (.vStr "error")
      ∧ dictLookup (analyze_frames apiKey imagesExist (.error err)) "alerts"
          = some (.vStrList ["API Error"])
      ∧ dictLookup (analyze_frames apiKey imagesExist (.error err)) "behavior"
          = some (.vStr "Error processing frame") := by
  intro apiKey imagesExist err hk himgs
  have h : analyze_frames apiKey imagesExist (.error err) = apiErrorStub := by
    simp [analyze_frames, hk, himgs]
  refine ⟨h, ?_, ?_, ?_, ?_⟩ <;> rw [h] <;> decide

/-- C4 witness: the failure stub at a concrete failing call. -/
theorem C4_analyzer_failure_stub_witness :
    analyze_frames (some "key") [true] (.error "timeout") = apiErrorStub :=
  (C4_analyzer_failure_stub (some "key") [true] "timeout"
    (by decide) (by decide)).1

/-- C5 (counterexample): a congestion value arriving only under the
`congestion` field name is not folded into `congestion_level`: the
durable row stores the default 0 instead of the arriving value 7. -/
theorem C5_counterexample :
    ((tickDispatch "v.mp4" (.ok [("congestion", .vInt 7)]) "t0" 0).dbRows.map
        (fun r => r.congestion_level)) = [.vInt 0]
    ∧ (PyVal.vInt 0 ≠ PyVal.vInt 7) := by
  decide

/-- C5 (amended): normalization folds in the opposite direction of the
claim: a value arriving under `congestion_level` is stored in the durable
row's `congestion_level` column and mirrored into a `congestion` alias
for the frontend, while a value arriving only under `congestion` is not
folded — the stored `congestion_level` falls back to the default 0. -/
theorem C5_congestion_folding :
    (∀ (f ts : String) (fc : Nat) (d : Dict) (v : PyVal),
      dictLookup d "congestion_level" = some v → hasKey d "error" = false →
      (tickDispatch f (.ok d) ts fc).dbRows.map (fun r => r.congestion_level)
        = [v])
    ∧ (∀ (f ts : String) (fc : Nat) (d : Dict),
      hasKey d "congestion_level" = false → hasKey d "error" = false →
      (tickDispatch f (.ok d) ts fc).dbRows.map (fun r => r.congestion_level)
        = [.vInt 0])
    ∧ (∀ (d : Dict) (v : PyVal),
      dictLookup d "congestion_level" = some v → hasKey d "congestion" = false →
      dictLookup (normalizeInsight d) "congestion" = some v) := by
  refine ⟨?_, ?_, ?_⟩
  · intro f ts fc d v hv he
    rw [tickDispatch_ok_dbRows he]
    have h : dictLookup
        (setKey (setKey (normalizeInsight d) "timestamp" (.vStr ts))
          "frame_id" (.vInt fc)) "congestion_level" = some v := by
      rw [lookup_stamp_of_ne _ _ _ (by decide) (by decide),
        lookup_normalizeInsight_of_ne _ (by decide) (by decide)]
      exact hv
    simp [mkRow, getD, h]
  · intro f ts fc d hmiss he
    rw [tickDispatch_ok_dbRows he]
    have h : dictLookup
        (setKey (setKey (normalizeInsight d) "timestamp" (.vStr ts))
          "frame_id" (.vInt fc)) "congestion_level" = none := by
      rw [lookup_stamp_of_ne _ _ _ (by decide) (by decide),
        lookup_normalizeInsight_of_ne _ (by decide) (by decide)]
      simpa [hasKey, Option.isSome_iff_exists] using hmiss
    simp [mkRow, getD, h]
  · intro d v hv hc
    unfold normalizeInsight
    rw [lookup_coerceFreeSpace_of_ne _ (by decide),
      congestionAlias_of_condition (by simp [hasKey, hv]) hc,
      dictLookup_setKey_self, hv]
    rfl

/-- C5 witness: both folding directions at concrete inputs. -/
theorem C5_congestion_folding_witness :
    (tickDispatch "v.mp4" (.ok [("congestion_level", .vInt 4)]) "t0" 0).dbRows.map
        (fun r => r.congestion_level) = [.vInt 4]
    ∧ dictLookup (normalizeInsight [("congestion_level", .vInt 4)]) "congestion"
        = some (.vInt 4) :=
  ⟨C5_congestion_folding.1 "v.mp4" "t0" 0 [("congestion_level", .vInt 4)]
      (.vInt 4) (by decide) (by decide),
   C5_congestion_folding.2.2 [("congestion_level", .vInt 4)] (.vInt 4)
      (by decide) (by decide)⟩

/-- C6 (counterexample): normalizing an Insight already in the spec's
canonical shape is not the identity — the step adds a `congestion`
alias field. -/
theorem C6_counterexample :
    normalizeInsight canonicalInsight ≠ canonicalInsight
    ∧ hasKey canonicalInsight "congestion" = false
    ∧ hasKey (normalizeInsight canonicalInsight) "congestion" = true := by
  decide

/-- C6 (amended): the normalization step is idempotent as a function
(applying it twice equals applying it once), and it leaves unchanged any
insight that already carries the `congestion` key and whose `free_space`
holds no string; but an insight in the spec's canonical shape (with
`congestion_level` and no `congestion` alias) gains the alias field. -/
theorem C6_normalize_idempotent :
    (∀ d : Dict, normalizeInsight (normalizeInsight d) = normalizeInsight d)
    ∧ (∀ d : Dict, hasKey d "congestion" = true →
        (∀ s : String, dictLookup d "free_space" ≠ some (.vStr s)) →
        normalizeInsight d = d) := by
  constructor
  · exact normalizeInsight_idem
  · intro d hc hfs
    unfold normalizeInsight
    rw [congestionAlias_noop (Or.inl hc)]
    exact coerceFreeSpace_notStr hfs

/-- C6 witness: idempotence on the canonical insight, and invariance of
an insight that already carries the alias. -/
theorem C6_normalize_idempotent_witness :
    normalizeInsight (normalizeInsight canonicalInsight)
      = normalizeInsight canonicalInsight
    ∧ normalizeInsight [("congestion", .vInt 3)] = [("congestion", .vInt 3)] := by
  constructor
  · exact C6_normalize_idempotent.1 canonicalInsight
  · apply C6_normalize_idempotent.2 [("congestion", .vInt 3)] (by decide)
    intro s h
    rw [show dictLookup [("congestion", PyVal.vInt 3)] "free_space" = none
      from by decide] at h
    exact Option.noConfusion h

/-- C10: a tick whose analyzer call raised (so its insight is the
synthesized `{"error": ...}` dict) is still pushed to the live viewer
channel but appends no durable-store row; a tick whose insight has no
`"error"` key appends exactly one row. -/
theorem C10_error_tick_isolation :
    (∀ (f e ts : String) (fc : Nat),
      (tickDispatch f (.error e) ts fc).dbRows = []
      ∧ dictLookup (tickDispatch f (.error e) ts fc).wsInsight "error"
          = some (.vStr e))
    ∧ (∀ (f ts : String) (fc : Nat) (d : Dict), hasKey d "error" = false →
      (tickDispatch f (.ok d) ts fc).dbRows.length = 1) := by
  constructor
  · intro f e ts fc
    have hn : normalizeInsight [("error", PyVal.vStr e)] = [("error", .vStr e)] := by
      unfold normalizeInsight
      rw [congestionAlias_noop (Or.inr (by simp [hasKey, dictLookup]))]
      exact coerceFreeSpace_notStr (by intro s; simp [dictLookup])
    have hl : dictLookup
        (setKey (setKey (normalizeInsight [("error", PyVal.vStr e)])
          "timestamp" (.vStr ts)) "frame_id" (.vInt fc)) "error"
        = some (.vStr e) := by
      rw [lookup_stamp_of_ne _ _ _ (by decide) (by decide), hn]
      simp [dictLookup]
    constructor
    · have h : hasKey
          (setKey (setKey (normalizeInsight [("error", PyVal.vStr e)])
            "timestamp" (.vStr ts)) "frame_id" (.vInt fc)) "error" = true := by
        simp [hasKey, hl]
      simp [tickDispatch, h]
    · simpa [tickDispatch] using hl
  · intro f ts fc d he
    rw [tickDispatch_ok_dbRows he]
    rfl

/-- C10 witness: a concrete errored tick and a concrete clean tick. -/
theorem C10_error_tick_isolation_witness :
    (tickDispatch "v.mp4" (.error "boom") "t0" 30).dbRows = []
    ∧ (tickDispatch "v.mp4" (.ok [("count", .vInt 2)]) "t0" 30).dbRows.length
        = 1 :=
  ⟨(C10_error_tick_isolation.1 "v.mp4" "boom" "t0" 30).1,
   C10_error_tick_isolation.2 "v.mp4" "t0" 30 [("count", .vInt 2)] (by decide)⟩

/-- C7: the wire shape of an ingestion POST is determined solely by
whether a frame accompanies the event: a (non-empty) frame yields the
multipart request carrying the event payload and the JPEG bytes, no
frame yields the JSON batch envelope `{"events": [payload]}`. -/
theorem C7_wire_shape :
    ∀ (wid : String) (e : Event),
      (sendEventRequest wid e).isMultipart = truthyBytes e.frame
      ∧ (e.frame = none →
          sendEventRequest wid e = .jsonBatch [eventPayload wid e])
      ∧ (∀ bs : List Nat, e.frame = some bs → bs ≠ [] →
          sendEventRequest wid e = .multipart (eventPayload wid e) bs) := by
  intro wid e
  refine ⟨?_, ?_, ?_⟩
  · by_cases h : truthyBytes e.frame = true
    · simp [sendEventRequest, h, WireRequest.isMultipart]
    · simp only [Bool.not_eq_true] at h
      simp [sendEventRequest, h, WireRequest.isMultipart]
  · intro h
    simp [sendEventRequest, truthyBytes, h]
  · intro bs hbs hne
    simp [sendEventRequest, truthyBytes, hbs, hne]

/-- C7 witness: the two wire shapes at concrete events. -/
theorem C7_wire_shape_witness :
    sendEventRequest "w1"
        { event_type := "person_detected", camera_id := "cam_001", data := [],
          frame := some [255, 216], timestamp := 0 }
      = .multipart
          (eventPayload "w1"
            { event_type := "person_detected", camera_id := "cam_001", data := [],
              frame := some [255, 216], timestamp := 0 })
          [255, 216]
    ∧ sendEventRequest "w1"
        { event_type := "status", camera_id := "cam_001", data := [],
          frame := none, timestamp := 0 }
      = .jsonBatch
          [eventPayload "w1"
            { event_type := "status", camera_id := "cam_001", data := [],
              frame := none, timestamp := 0 }] :=
  ⟨(C7_wire_shape "w1" _).2.2 [255, 216] rfl (by decide),
   (C7_wire_shape "w1" _).2.1 rfl⟩

/-- C8 (counterexample): a 204 response is in the 200 class, yet
`send_event` reports failure for it (success requires status 200
exactly). -/
theorem C8_counterexample :
    (sendEventResult (.ok 204)).1 = false ∧ 200 ≤ 204 ∧ 204 < 300 := by
  decide

/-- C8 (amended): sending reports success exactly when the response
status is exactly 200 (any other status, 2xx included, and any transport
exception is a logged failure, not retried), and `events_sent` is
incremented exactly when success is reported. -/
theorem C8_success_exactly_200 :
    ∀ outcome : Except String Nat,
      ((sendEventResult outcome).1 = true ↔ outcome = .ok 200)
      ∧ (sendEventResult outcome).2
          = (if (sendEventResult outcome).1 then 1 else 0) := by
  intro outcome
  cases outcome with
  | error msg => simp [sendEventResult]
  | ok st =>
      by_cases h : st = 200 <;> simp [sendEventResult, h]

/-- C8 witness: the success accounting at status 200. -/
theorem C8_success_exactly_200_witness :
    (sendEventResult (.ok 200)).1 = true
    ∧ (sendEventResult (.ok 200)).2
        = (if (sendEventResult (.ok 200)).1 then 1 else 0) :=
  ⟨(C8_success_exactly_200 (.ok 200)).1.mpr rfl,
   (C8_success_exactly_200 (.ok 200)).2⟩

/-- C9 (counterexample): the cadence is `int(fps)` with no minimum-1
clamp: an fps of 1/2 yields cadence 0 (the claim demands
`max 1 (round fps)` = 1, and "never zero"), and an fps of 59/2 yields 29
where rounding would give 30. -/
theorem C9_counterexample :
    frameCadence (mkRat 1 2) = 0
    ∧ max 1 (pyRound (mkRat 1 2)) = 1
    ∧ frameCadence (mkRat 59 2) = 29
    ∧ max 1 (pyRound (mkRat 59 2)) = 30 := by
  decide

/-- C9 (amended): the default cadence is `int(fps)` — truncation toward
zero — with only an exactly-zero fps remapped to 30: it is at least 1
whenever fps ≥ 1 (so the interval arithmetic is well defined there) and
equals any integer fps exactly, but a fractional fps below 1 yields
cadence 0, where the `frame_count % frame_interval` arithmetic is not
defined. -/
theorem C9_cadence_truncation :
    (∀ q : ℚ, 1 ≤ q → 1 ≤ frameCadence q)
    ∧ frameCadence 0 = 30
    ∧ (∀ n : ℤ, 1 ≤ n → frameCadence (n : ℚ) = n)
    ∧ (∃ q : ℚ, 0 < q ∧ frameCadence q = 0) := by
  refine ⟨?_, by decide, ?_, ⟨mkRat 1 2, by decide, by decide⟩⟩
  · intro q hq
    have hq0 : q ≠ 0 := (lt_of_lt_of_le one_pos hq).ne'
    have hnum : (q.den : ℤ) ≤ q.num := by
      have h := Rat.le_def.mp hq
      simpa using h
    have hden : (0 : ℤ) < (q.den : ℤ) := by exact_mod_cast q.den_pos
    unfold frameCadence pyIntOfRat
    rw [if_neg hq0, Int.tdiv_eq_ediv (le_trans hden.le hnum) hden.le,
      Int.le_ediv_iff_mul_le hden]
    simpa using hnum
  · intro n hn
    have hn0 : (n : ℚ) ≠ 0 := by
      simp only [ne_eq, Int.cast_eq_zero]
      omega
    unfold frameCadence pyIntOfRat
    rw [if_neg hn0, Rat.num_intCast, Rat.den_intCast]
    simp [Int.tdiv_one]

/-- C9 witness: the amended cadence facts at concrete frame rates. -/
theorem C9_cadence_truncation_witness :
    1 ≤ frameCadence 30 ∧ frameCadence ((25 : ℤ) : ℚ) = 25 :=
  ⟨C9_cadence_truncation.1 30 (by decide),
   C9_cadence_truncation.2.2.1 25 (by decide)⟩

/-! ## Cooldown-gate lemmas -/

theorem lookupTime_setTime_self (st : AlertState) (cam : String) (t : ℚ) :
    lookupTime (setTime st cam t) cam = t := by
  induction st with
  | nil => simp [setTime, lookupTime]
  | cons hd rest ih =>
      obtain ⟨c, t'⟩ := hd
      by_cases h : c = cam
      · simp [setTime, h, lookupTime]
      · simp [setTime, h, lookupTime, ih]

theorem yoloTick_alerted_iff (W : ℚ) (st : AlertState) (cam : String)
    (cls : List String) (now : ℚ) :
    (yoloTick W st cam cls now).alerted = true ↔
      (0 < (cls.filter (fun c => c = "person")).length
        ∧ W ≤ now - lookupTime st cam) := by
  by_cases hc : 0 < (cls.filter (fun c => c = "person")).length
      ∧ W ≤ now - lookupTime st cam
  · simp [yoloTick, hc]
  · simp [yoloTick, hc]

theorem yoloTick_state (W : ℚ) (st : AlertState) (cam : String)
    (cls : List String) (now : ℚ) :
    (yoloTick W st cam cls now).state =
      if 0 < (cls.filter (fun c => c = "person")).length
          ∧ W ≤ now - lookupTime st cam
      then setTime st cam now else st := by
  by_cases hc : 0 < (cls.filter (fun c => c = "person")).length
      ∧ W ≤ now - lookupTime st cam
  · simp [yoloTick, hc]
  · simp [yoloTick, hc]

theorem yoloTick_published (W : ℚ) (st : AlertState) (cam : String)
    (cls : List String) (now : ℚ) :
    (yoloTick W st cam cls now).published =
      if cls.isEmpty then none else some cls := by
  by_cases hc : 0 < (cls.filter (fun c => c = "person")).length
      ∧ W ≤ now - lookupTime st cam
  · simp [yoloTick, hc]
  · simp [yoloTick, hc]

theorem personCount_pos {cls : List String} (h : "person" ∈ cls) :
    0 < (cls.filter (fun c => c = "person")).length := by
  apply List.length_pos.mpr
  intro hnil
  have hmem : "person" ∈ cls.filter (fun c => c = "person") :=
    List.mem_filter.mpr ⟨h, by simp⟩
  simp [hnil] at hmem

theorem runAlerts_lower {W : ℚ} (hW : 0 ≤ W) (cam : String) :
    ∀ (frames : List (List String × ℚ)) (st : AlertState) (t' : ℚ),
      t' ∈ runAlerts W cam st frames → lookupTime st cam + W ≤ t' := by
  intro frames
  induction frames with
  | nil =>
      intro st t' h
      simp [runAlerts] at h
  | cons p rest ih =>
      obtain ⟨cls, t⟩ := p
      intro st t' ht'
      simp only [runAlerts] at ht'
      by_cases ha : (yoloTick W st cam cls t).alerted = true
      · rw [if_pos ha] at ht'
        have hc := (yoloTick_alerted_iff W st cam cls t).mp ha
        have hstate : (yoloTick W st cam cls t).state = setTime st cam t := by
          rw [yoloTick_state, if_pos hc]
        rcases List.mem_cons.mp ht' with rfl | hmem
        · linarith [hc.2]
        · have hrec := ih (setTime st cam t) t' (hstate ▸ hmem)
          rw [lookupTime_setTime_self] at hrec
          have h2 : lookupTime st cam + W ≤ t := by linarith [hc.2]
          linarith
      · rw [if_neg ha] at ht'
        have hnc : ¬(0 < (cls.filter (fun c => c = "person")).length
            ∧ W ≤ t - lookupTime st cam) :=
          fun hc => ha ((yoloTick_alerted_iff W st cam cls t).mpr hc)
        have hstate : (yoloTick W st cam cls t).state = st := by
          rw [yoloTick_state, if_neg hnc]
        exact ih st t' (hstate ▸ ht')

theorem runAlerts_chain {W : ℚ} (hW : 0 ≤ W) (cam : String) :
    ∀ (frames : List (List String × ℚ)) (st : AlertState),
      (runAlerts W cam st frames).Chain' (fun a b => a + W ≤ b) := by
  intro frames
  induction frames with
  | nil =>
      intro st
      simp [runAlerts]
  | cons p rest ih =>
      obtain ⟨cls, t⟩ := p
      intro st
      simp only [runAlerts]
      by_cases ha : (yoloTick W st cam cls t).alerted = true
      · rw [if_pos ha]
        have hc := (yoloTick_alerted_iff W st cam cls t).mp ha
        have hstate : (yoloTick W st cam cls t).state = setTime st cam t := by
          rw [yoloTick_state, if_pos hc]
        rw [List.chain'_cons']
        constructor
        · intro y hy
          have hymem := List.mem_of_mem_head? hy
          have hlow :=
            runAlerts_lower hW cam rest ((yoloTick W st cam cls t).state) y hymem
          rw [hstate, lookupTime_setTime_self] at hlow
          exact hlow
        · exact ih _
      · rw [if_neg ha]
        have hnc : ¬(0 < (cls.filter (fun c => c = "person")).length
            ∧ W ≤ t - lookupTime st cam) :=
          fun hc => ha ((yoloTick_alerted_iff W st cam cls t).mpr hc)
        have hstate : (yoloTick W st cam cls t).state = st := by
          rw [yoloTick_state, if_neg hnc]
        rw [hstate]
        exact ih st

/-- C2: for alert-bearing frames of the same source at t0 < t1 < t2 with
cooldown window W, if the alert at t0 was emitted and t1 − t0 < W, the
alert at t1 is suppressed while its detection telemetry is still
published unchanged; if additionally W ≤ t2 − t0, the alert at t2 is
dispatched.  Moreover (second conjunct) consecutive dispatched alert
times for one source are never less than W apart, over any run. -/
theorem C2_cooldown_gate :
    (∀ (W t0 t1 t2 : ℚ) (cam : String) (cls0 cls1 cls2 : List String)
        (st : AlertState),
      t0 < t1 → t1 < t2 →
      "person" ∈ cls1 → "person" ∈ cls2 →
      (yoloTick W st cam cls0 t0).alerted = true →
      t1 - t0 < W → W ≤ t2 - t0 →
      (yoloTick W (yoloTick W st cam cls0 t0).state cam cls1 t1).alerted = false
      ∧ (yoloTick W (yoloTick W st cam cls0 t0).state cam cls1 t1).published
          = some cls1
      ∧ (yoloTick W
          (yoloTick W (yoloTick W st cam cls0 t0).state cam cls1 t1).state
          cam cls2 t2).alerted = true)
    ∧ (∀ (W : ℚ), 0 ≤ W → ∀ (cam : String) (st : AlertState)
        (frames : List (List String × ℚ)),
      (runAlerts W cam st frames).Chain' (fun a b => a + W ≤ b)) := by
  constructor
  · intro W t0 t1 t2 cam cls0 cls1 cls2 st h01 h12 hp1 hp2 ha0 hlt hge
    have hc0 := (yoloTick_alerted_iff W st cam cls0 t0).mp ha0
    have hst0 : (yoloTick W st cam cls0 t0).state = setTime st cam t0 := by
      rw [yoloTick_state, if_pos hc0]
    have hlook : lookupTime (setTime st cam t0) cam = t0 :=
      lookupTime_setTime_self st cam t0
    have hnc1 : ¬(0 < (cls1.filter (fun c => c = "person")).length
        ∧ W ≤ t1 - lookupTime (setTime st cam t0) cam) := by
      rw [hlook]
      rintro ⟨-, hW⟩
      linarith
    have h1 : (yoloTick W (setTime st cam t0) cam cls1 t1).alerted = false := by
      rw [← Bool.not_eq_true, yoloTick_alerted_iff]
      exact hnc1
    have hne1 : cls1.isEmpty = false := by
      cases cls1 with
      | nil => cases hp1
      | cons a l => rfl
    have hst1 : (yoloTick W (setTime st cam t0) cam cls1 t1).state
        = setTime st cam t0 := by
      rw [yoloTick_state, if_neg hnc1]
    refine ⟨hst0 ▸ h1, ?_, ?_⟩
    · rw [hst0, yoloTick_published, hne1]
      simp
    · rw [hst0, hst1, yoloTick_alerted_iff, hlook]
      exact ⟨personCount_pos hp2, hge⟩
  · intro W hW cam st frames
    exact runAlerts_chain hW cam frames st

section
attribute [local semireducible] Rat.sub Rat.add

/-- C2 witness: the three-tick scenario and the spacing invariant at
concrete times (W = 5, alerts at 10, 12, 20). -/
theorem C2_cooldown_gate_witness :
    ((yoloTick 5 (yoloTick 5 [] "cam_001" ["person"] 10).state "cam_001"
        ["person"] 12).alerted = false
      ∧ (yoloTick 5 (yoloTick 5 [] "cam_001" ["person"] 10).state "cam_001"
          ["person"] 12).published = some ["person"]
      ∧ (yoloTick 5
          (yoloTick 5 (yoloTick 5 [] "cam_001" ["person"] 10).state "cam_001"
            ["person"] 12).state "cam_001" ["person"] 20).alerted = true)
    ∧ (runAlerts 5 "cam_001" []
        [(["person"], 10), (["person"], 12), (["person"], 20)]).Chain'
        (fun a b => a + 5 ≤ b) := by
  constructor
  · apply C2_cooldown_gate.1 5 10 12 20 "cam_001" ["person"] ["person"] ["person"] []
    · decide
    · decide
    · decide
    · decide
    · decide
    · decide
    · decide
  · exact C2_cooldown_gate.2 5 (by decide) "cam_001" []
      [(["person"], 10), (["person"], 12), (["person"], 20)]

end

/-! ## Frame-loop lemmas -/

theorem streamTicksAux_stop {n c : Nat} (fuel pos fc : Nat) (h : n ≤ pos) :
    streamTicksAux n c fuel pos fc = [] := by
  cases fuel with
  | zero => rfl
  | succ f => simp [streamTicksAux, Nat.not_lt.mpr h]

theorem streamTicksAux_congr {n c : Nat} :
    ∀ (f₁ f₂ pos fc : Nat), n - pos ≤ f₁ → n - pos ≤ f₂ →
      streamTicksAux n c f₁ pos fc = streamTicksAux n c f₂ pos fc := by
  intro f₁
  induction f₁ using Nat.strong_induction_on with
  | _ f₁ ih =>
      intro f₂ pos fc h₁ h₂
      cases f₁ with
      | zero =>
          have hnp : n ≤ pos := by omega
          rw [streamTicksAux_stop _ _ _ hnp, streamTicksAux_stop _ _ _ hnp]
      | succ f =>
          cases f₂ with
          | zero =>
              have hnp : n ≤ pos := by omega
              rw [streamTicksAux_stop _ _ _ hnp, streamTicksAux_stop _ _ _ hnp]
          | succ g =>
              by_cases hpos : pos < n
              · simp only [streamTicksAux, if_pos hpos]
                by_cases hfc : fc % c = 0
                · simp only [if_pos hfc]
                  congr 1
                  have hmin : min 2 (n - (pos + 1)) ≤ n - (pos + 1) :=
                    Nat.min_le_right _ _
                  exact ih f (by omega) g _ _ (by omega) (by omega)
                · simp only [if_neg hfc]
                  exact ih f (by omega) g _ _ (by omega) (by omega)
              · simp only [streamTicksAux, if_neg hpos]

theorem streamFrom_stop {n c pos fc : Nat} (h : n ≤ pos) :
    streamFrom n c pos fc = [] :=
  streamTicksAux_stop _ _ _ h

theorem streamFrom_skip {n c pos fc : Nat} (hpos : pos < n)
    (hfc : ¬ fc % c = 0) :
    streamFrom n c pos fc = streamFrom n c (pos + 1) (fc + 1) := by
  unfold streamFrom
  rw [show n - pos = (n - (pos + 1)) + 1 by omega]
  simp only [streamTicksAux, if_pos hpos, if_neg hfc]

theorem streamFrom_tick {n c pos fc : Nat} (hpos : pos < n)
    (hfc : fc % c = 0) :
    streamFrom n c pos fc
      = (fc, pos, 1 + min 2 (n - (pos + 1))) ::
        streamFrom n c (pos + 1 + min 2 (n - (pos + 1))) (fc + 1) := by
  unfold streamFrom
  rw [show n - pos = (n - pos - 1) + 1 by omega]
  simp only [streamTicksAux, if_pos hpos, if_pos hfc]
  congr 1
  apply streamTicksAux_congr
  · have hmin : min 2 (n - (pos + 1)) ≤ n - (pos + 1) := Nat.min_le_right _ _
    omega
  · omega

theorem streamTicks_eq_streamFrom (n c : Nat) :
    streamTicks n c = streamFrom n c 0 0 := by
  unfold streamTicks streamFrom
  rw [Nat.sub_zero]

theorem streamFrom_skipRun {n c : Nat} :
    ∀ (m pos fc : Nat), (∀ j, j < m → ¬ (fc + j) % c = 0) →
      streamFrom n c pos fc = streamFrom n c (pos + m) (fc + m) := by
  intro m
  induction m with
  | zero =>
      intro pos fc _
      rfl
  | succ m ih =>
      intro pos fc h
      by_cases hpos : pos < n
      · rw [streamFrom_skip hpos (by simpa using h 0 (by omega))]
        rw [ih (pos + 1) (fc + 1)
          (fun j hj => by
            have hh := h (j + 1) (by omega)
            rw [show fc + 1 + j = fc + (j + 1) by omega]
            exact hh)]
        congr 1 <;> omega
      · rw [streamFrom_stop (by omega), streamFrom_stop (by omega)]

theorem streamFrom_char {n c : Nat} (hc : 1 ≤ c) :
    ∀ (x pos fc : Nat), x = n - pos → fc % c = 0 →
      streamFrom n c pos fc
        = (List.range ((x + c + 1) / (c + 2))).map
            (fun i => (fc + i * c, pos + i * (c + 2),
              1 + min 2 (n - (pos + i * (c + 2) + 1)))) := by
  intro x
  induction x using Nat.strong_induction_on with
  | _ x ihx =>
      intro pos fc hx hfc
      by_cases hpos : pos < n
      · have hx1 : 1 ≤ x := by omega
        rw [streamFrom_tick hpos hfc]
        set e := min 2 (n - (pos + 1)) with he
        have hee : e ≤ n - (pos + 1) := Nat.min_le_right _ _
        have hrun : streamFrom n c (pos + 1 + e) (fc + 1)
            = streamFrom n c (pos + e + c) (fc + c) := by
          rw [streamFrom_skipRun (c - 1) (pos + 1 + e) (fc + 1)
            (fun j hj => by
              rw [show fc + 1 + j = fc + (1 + j) by omega, Nat.add_mod, hfc,
                Nat.zero_add, Nat.mod_mod_of_dvd (1 + j) dvd_rfl,
                Nat.mod_eq_of_lt (by omega : 1 + j < c)]
              omega)]
          congr 1 <;> omega
        rw [hrun]
        have hfcc : (fc + c) % c = 0 := by
          rw [Nat.add_mod, hfc, Nat.mod_self]
          simp
        by_cases hbig : c + 3 ≤ x
        · have he2 : e = 2 := by
            rw [he]
            exact Nat.min_eq_left (by omega)
          have hrec := ihx (x - (c + 2)) (by omega) (pos + 2 + c) (fc + c)
            (by omega) hfcc
          rw [he2]
          rw [show pos + 2 + c = pos + 2 + c from rfl, hrec]
          have hcnt : (x + c + 1) / (c + 2) = (x - (c + 2) + c + 1) / (c + 2) + 1 := by
            rw [show x + c + 1 = (x - (c + 2) + c + 1) + (c + 2) by omega]
            exact Nat.add_div_right _ (by omega)
          rw [hcnt, List.range_succ_eq_map, List.map_cons, List.map_map]
          congr 1
          · have h2 : 2 ≤ n - (pos + 1) := by omega
            simp [Nat.min_eq_left h2]
          · apply List.map_congr_left
            intro i hi
            simp only [Function.comp_apply]
            have hA : pos + 2 + c + i * (c + 2) + 1
                = pos + Nat.succ i * (c + 2) + 1 := by
              rw [Nat.succ_mul]
              omega
            simp only [Prod.mk.injEq]
            refine ⟨by rw [Nat.succ_mul]; omega, by rw [Nat.succ_mul]; omega, ?_⟩
            rw [hA]
        · have hstop : streamFrom n c (pos + e + c) (fc + c) = [] := by
            apply streamFrom_stop
            rcases Nat.le_total 2 (n - (pos + 1)) with h2 | h2
            · have : e = 2 := by rw [he]; exact Nat.min_eq_left h2
              omega
            · have : e = n - (pos + 1) := by rw [he]; exact Nat.min_eq_right h2
              omega
          rw [hstop]
          have hcnt : (x + c + 1) / (c + 2) = 1 := by
            apply Nat.div_eq_of_lt_le
            · omega
            · omega
          rw [hcnt]
          simp only [List.range_succ, List.range_zero, List.nil_append,
            List.map_cons, List.map_nil, Nat.zero_mul, Nat.add_zero]
      · have hx0 : x = 0 := by omega
        rw [streamFrom_stop (by omega), hx0,
          Nat.div_eq_of_lt (by omega)]
        rfl

theorem streamTicks_char {n c : Nat} (hc : 1 ≤ c) :
    streamTicks n c = (List.range (numTicks n c)).map
      (fun i => (i * c, i * (c + 2), 1 + min 2 (n - (i * (c + 2) + 1)))) := by
  rw [streamTicks_eq_streamFrom,
    streamFrom_char hc n 0 0 (by omega) (Nat.zero_mod c)]
  unfold numTicks
  apply List.map_congr_left
  intro i hi
  simp

/-- C1 (counterexample): at 90 native frames and cadence 30 with the
hard-coded 3-frame windows, the loop's window reads advance the capture,
so the native anchor positions are 0, 32, 64 — not the multiples of the
cadence the claim states; and at 65 native frames the tick count is 3,
not `floor(65/30) = 2`. -/
theorem C1_counterexample :
    streamTicks 90 30 = [(0, 0, 3), (30, 32, 3), (60, 64, 3)]
    ∧ (streamTicks 90 30).map (fun t => t.2.1) ≠ [0, 30, 60]
    ∧ (streamTicks 65 30).length ≠ 65 / 30 := by
  decide

/-- C1 (amended): for cadence ≥ 1 the sampled-file variant emits exactly
`⌈N / (cadence + 2)⌉` ticks (the K−1 = 2 extra window reads advance the
source, so each processing cycle consumes cadence + 2 native frames); the
i-th tick carries loop-counter id `i·cadence` (a multiple of the
cadence) but its anchor sits at native frame `i·(cadence + 2)`, and its
window holds `1 + min 2 (N − anchor − 1)` frames (up to 3, fewer only at
end of stream).  The 90-frame cadence-30 scenario yields 3 ticks with ids
0, 30, 60 anchored at native frames 0, 32, 64. -/
theorem C1_sampling_cadence :
    (∀ n c : Nat, 1 ≤ c → (streamTicks n c).length = numTicks n c)
    ∧ (∀ n c : Nat, 1 ≤ c → ∀ i (h : i < (streamTicks n c).length),
        (streamTicks n c).get ⟨i, h⟩
          = (i * c, i * (c + 2), 1 + min 2 (n - (i * (c + 2) + 1))))
    ∧ (∀ n c : Nat, 1 ≤ c → ∀ t ∈ streamTicks n c, t.1 % c = 0)
    ∧ streamTicks 90 30 = [(0, 0, 3), (30, 32, 3), (60, 64, 3)] := by
  refine ⟨?_, ?_, ?_, by decide⟩
  · intro n c hc
    rw [streamTicks_char hc]
    simp
  · intro n c hc i h
    rw [List.get_of_eq (streamTicks_char hc) ⟨i, h⟩]
    simp [List.get_eq_getElem, List.getElem_map, List.getElem_range]
  · intro n c hc t ht
    rw [streamTicks_char hc] at ht
    rcases List.mem_map.mp ht with ⟨i, -, rfl⟩
    exact Nat.mul_mod_left i c

/-- C1 witness: the amended count, per-tick shape and id-multiplicity at
the 90-frame cadence-30 instance. -/
theorem C1_sampling_cadence_witness :
    (streamTicks 90 30).length = numTicks 90 30
    ∧ (streamTicks 90 30).get ⟨1, by decide⟩ = (30, 32, 3)
    ∧ (30, 32, 3) ∈ streamTicks 90 30 ∧ (30 : Nat) % 30 = 0 :=
  ⟨C1_sampling_cadence.1 90 30 (by decide),
   by
    have h := C1_sampling_cadence.2.1 90 30 (by decide) 1 (by decide)
    simpa using h,
   by decide,
   C1_sampling_cadence.2.2.1 90 30 (by decide) (30, 32, 3) (by decide)⟩

end Iris
